import Mathlib

/-!
Verification of the route table declared in `Class_01/myproject/myapp/urls.py`.

The source file declares an ordered list `urlpatterns` of four route entries,
each pairing a literal path pattern with a handler reference and a symbolic
name.  The handlers themselves (`views.index`, `test.dataRender3`,
`views.htmlPage`, `test.htmlPage2`) live in external modules and are opaque
here; we model them as an enumerated type of handler references.  The
dispatcher and the reverse-lookup machinery are framework internals, modelled
from the spec where needed.
-/

/-- Opaque references to the handler callables imported by `urls.py`.
`dataRender2` is the handler of the commented-out route and is never
registered in the table. -/
inductive Handler where
  | index
  | dataRender2
  | dataRender3
  | htmlPage
  | htmlPage2
deriving DecidableEq

namespace views

/-- Source import: `views.index`. -/
def index : Handler := Handler.index

/-- Source import: `views.htmlPage`. -/
def htmlPage : Handler := Handler.htmlPage

end views

namespace test

/-- Source import: `test.dataRender3`. -/
def dataRender3 : Handler := Handler.dataRender3

/-- Source import: `test.htmlPage2`. -/
def htmlPage2 : Handler := Handler.htmlPage2

end test

/-- One entry of the route table: a literal path pattern, a handler
reference, and an optional symbolic name for reverse lookup
(spec section 3, RouteEntry). -/
structure RouteEntry where
  pattern : String
  handler : Handler
  name : Option String
deriving DecidableEq

/-- Source helper `path(route, view, name=...)`: builds one route entry. -/
def path (pattern : String) (handler : Handler) (nm : Option String) : RouteEntry :=
  ⟨pattern, handler, nm⟩

/-- The route table declared in `urls.py`.  The `data-acces2` entry is
commented out in the source and hence absent. -/
def urlpatterns : List RouteEntry :=
  [ path "" views.index (some "index"),
    path "data-access3" test.dataRender3 (some "index3"),
    path "html1" views.htmlPage (some "html_page2"),
    path "html2" test.htmlPage2 (some "html_page3") ]

/-- Modelled from the spec: the host framework's URL dispatcher (not in the
repository) scans the table and selects the first entry whose literal
pattern equals the request path, yielding its handler; `none` when no entry
matches. -/
def dispatch (tbl : List RouteEntry) (p : String) : Option Handler :=
  (tbl.find? fun e => e.pattern == p).map RouteEntry.handler

/-- Modelled from the spec: a request URL begins with a slash; the framework
removes that leading slash before matching it against the table's literal
patterns. -/
def stripSlash (url : String) : String :=
  match url.data with
  | '/' :: rest => String.mk rest
  | _ => url

/-- Modelled from the spec: dispatch of an incoming request URL over the
declared route table. -/
def resolve (url : String) : Option Handler :=
  dispatch urlpatterns (stripSlash url)

/-- Modelled from the spec: reverse lookup (performed by framework
collaborators, not in the repository) maps a symbolic route name to the
literal pattern of the first entry carrying that name. -/
def reverseLookup (tbl : List RouteEntry) (nm : String) : Option String :=
  (tbl.find? fun e => e.name == some nm).map RouteEntry.pattern

/-- Modelled from the spec, section 2: scan entries in declaration order and
invoke the first handler whose pattern matches the request path; stated as a
direct structural recursion to compare with `dispatch`. -/
def firstMatch : List RouteEntry → String → Option Handler
  | [], _ => none
  | e :: rest, p => if e.pattern = p then some e.handler else firstMatch rest p

/-- Modelled from the spec, section 5: process state carrying the route
table, read by the dispatch and reverse-lookup operations. -/
structure ProcState where
  table : List RouteEntry

/-- Dispatch as an operation on the process state: result plus the state
after the operation. -/
def dispatchOp (s : ProcState) (p : String) : Option Handler × ProcState :=
  (dispatch s.table p, s)

/-- Reverse lookup as an operation on the process state: result plus the
state after the operation. -/
def reverseOp (s : ProcState) (nm : String) : Option String × ProcState :=
  (reverseLookup s.table nm, s)

/-- Claim C1: for each declared path in the route table, dispatching a
request with exactly that path invokes the handler bound to it: requesting
the root URL invokes `views.index`, requesting `/data-access3` invokes
`test.dataRender3`, requesting `/html1` invokes `views.htmlPage`, and
requesting `/html2` invokes `test.htmlPage2`. -/
theorem dispatch_declared_paths :
    resolve "/" = some views.index ∧
    resolve "/data-access3" = some test.dataRender3 ∧
    resolve "/html1" = some views.htmlPage ∧
    resolve "/html2" = some test.htmlPage2 := by
  decide

/-- Claim C2: dispatching the path of the commented-out entry,
`/data-acces2`, matches nothing in the table: no handler is invoked. -/
theorem no_route_for_data_acces2 :
    resolve "/data-acces2" = none := by
  decide

/-- Claim C3: reverse lookup maps each registered name to the literal path
of its entry. -/
theorem reverse_lookup_resolves_names :
    reverseLookup urlpatterns "index" = some "" ∧
    reverseLookup urlpatterns "index3" = some "data-access3" ∧
    reverseLookup urlpatterns "html_page2" = some "html1" ∧
    reverseLookup urlpatterns "html_page3" = some "html2" := by
  decide

/-- Claim C4: the route table is exactly the ordered four-entry sequence of
the declaration, in declaration order; being a constant value, it is the
same on every construction. -/
theorem urlpatterns_entries :
    urlpatterns =
      [ ⟨"", Handler.index, some "index"⟩,
        ⟨"data-access3", Handler.dataRender3, some "index3"⟩,
        ⟨"html1", Handler.htmlPage, some "html_page2"⟩,
        ⟨"html2", Handler.htmlPage2, some "html_page3"⟩ ] := by
  decide

/-- Claim C6: every name present in the route table occurs on exactly one
entry; the four registered names are pairwise distinct, so reverse lookup
is unambiguous. -/
theorem route_names_unique :
    urlpatterns.filterMap RouteEntry.name =
      ["index", "index3", "html_page2", "html_page3"] ∧
    (urlpatterns.filterMap RouteEntry.name).Nodup := by
  decide

/-- Claim C7: dispatching any request path and reverse-looking-up any name
leave the route table unchanged: the table after either operation equals
the table before it. -/
theorem table_unchanged_by_ops (s : ProcState) (p nm : String) :
    (dispatchOp s p).2.table = s.table ∧ (reverseOp s nm).2.table = s.table :=
  ⟨rfl, rfl⟩

/-- Claim C5: the dispatcher scans entries in declaration order and invokes
the handler of the first entry whose pattern matches the request path; if no
entry matches, no handler is invoked.  `firstMatch` is that scan written as
a structural recursion; `dispatch` agrees with it on every table and path. -/
theorem dispatch_eq_firstMatch (tbl : List RouteEntry) (p : String) :
    dispatch tbl p = firstMatch tbl p := by
  induction tbl with
  | nil => rfl
  | cons e rest ih =>
    by_cases h : e.pattern = p
    · simp [dispatch, firstMatch, List.find?_cons_of_pos, h]
    · simp only [firstMatch, if_neg h, ← ih]
      simp [dispatch, List.find?_cons_of_neg, h]

/-- Helper: distinct entries of the declared table carry distinct patterns. -/
theorem urlpatterns_patterns_injective :
    ∀ a ∈ urlpatterns, ∀ b ∈ urlpatterns, a.pattern = b.pattern → a = b := by
  decide

/-- Helper: `find?` is permutation-invariant when at most one element can
satisfy the predicate. -/
theorem find?_eq_of_perm (pred : RouteEntry → Bool) (l l' : List RouteEntry)
    (hp : l.Perm l')
    (huniq : ∀ a ∈ l, ∀ b ∈ l, pred a = true → pred b = true → a = b) :
    l.find? pred = l'.find? pred := by
  cases hfl : l.find? pred with
  | none =>
    have hall := List.find?_eq_none.mp hfl
    have : ∀ x ∈ l', ¬ pred x = true := fun x hx => hall x (hp.mem_iff.mpr hx)
    exact (List.find?_eq_none.mpr this).symm
  | some a =>
    have hpa := List.find?_some hfl
    have hmem := List.mem_of_find?_eq_some hfl
    cases hfl' : l'.find? pred with
    | none =>
      have hall := List.find?_eq_none.mp hfl'
      exact absurd hpa (hall a (hp.mem_iff.mp hmem))
    | some b =>
      have hpb := List.find?_some hfl'
      have hmem' : b ∈ l := hp.mem_iff.mpr (List.mem_of_find?_eq_some hfl')
      exact congrArg some (huniq a hmem b hmem' hpa hpb)

/-- Claim C8: because the registered patterns are pairwise distinct
literals, first-match dispatch over any permutation of the route table
returns the same handler (or not-found) as dispatch over the declared
order, for every request path. -/
theorem dispatch_perm_invariant (tbl : List RouteEntry) (p : String)
    (hp : tbl.Perm urlpatterns) :
    dispatch tbl p = dispatch urlpatterns p := by
  unfold dispatch
  refine congrArg (Option.map RouteEntry.handler) ?_
  refine find?_eq_of_perm _ tbl urlpatterns hp ?_
  intro a ha b hb hpa hpb
  have ha' : a ∈ urlpatterns := hp.mem_iff.mp ha
  have hb' : b ∈ urlpatterns := hp.mem_iff.mp hb
  have hap : a.pattern = p := by simpa using hpa
  have hbp : b.pattern = p := by simpa using hpb
  exact urlpatterns_patterns_injective a ha' b hb' (hap.trans hbp.symm)

/-- Witness for C8: dispatch over the reversed table agrees with dispatch
over the declared table at a concrete path. -/
theorem dispatch_perm_invariant_witness :
    urlpatterns.reverse.Perm urlpatterns ∧
    dispatch urlpatterns.reverse "html1" = dispatch urlpatterns "html1" :=
  ⟨List.reverse_perm urlpatterns,
   dispatch_perm_invariant urlpatterns.reverse "html1" (List.reverse_perm urlpatterns)⟩

/-- Claim C9: every entry of the route table carries a name; reverse-looking
up that name yields the entry's pattern, and dispatching that pattern
invokes the entry's handler. -/
theorem name_pattern_handler_round_trip (e : RouteEntry) (he : e ∈ urlpatterns) :
    e.name.isSome = true ∧
    reverseLookup urlpatterns (e.name.getD "") = some e.pattern ∧
    dispatch urlpatterns e.pattern = some e.handler := by
  revert e
  decide

/-- Witness for C9: the round trip at the first entry of the table. -/
theorem name_pattern_handler_round_trip_witness :
    (⟨"", Handler.index, some "index"⟩ : RouteEntry) ∈ urlpatterns ∧
    ((⟨"", Handler.index, some "index"⟩ : RouteEntry).name.isSome = true ∧
     reverseLookup urlpatterns ((⟨"", Handler.index, some "index"⟩ : RouteEntry).name.getD "") =
       some (⟨"", Handler.index, some "index"⟩ : RouteEntry).pattern ∧
     dispatch urlpatterns (⟨"", Handler.index, some "index"⟩ : RouteEntry).pattern =
       some (⟨"", Handler.index, some "index"⟩ : RouteEntry).handler) :=
  ⟨by decide, name_pattern_handler_round_trip ⟨"", Handler.index, some "index"⟩ (by decide)⟩

/-- Helper: dispatch finds a handler exactly when some entry's pattern
equals the path. -/
theorem dispatch_isSome_iff (tbl : List RouteEntry) (p : String) :
    (∃ h, dispatch tbl p = some h) ↔ ∃ e ∈ tbl, e.pattern = p := by
  constructor
  · rintro ⟨h, hh⟩
    simp only [dispatch, Option.map_eq_some'] at hh
    obtain ⟨e, he, -⟩ := hh
    exact ⟨e, List.mem_of_find?_eq_some he, by simpa using List.find?_some he⟩
  · rintro ⟨e, he, hep⟩
    have : ∃ x, tbl.find? (fun e => e.pattern == p) = some x := by
      rw [← Option.isSome_iff_exists, List.find?_isSome]
      exact ⟨e, he, by simpa using hep⟩
    obtain ⟨x, hx⟩ := this
    exact ⟨x.handler, by simp [dispatch, hx]⟩

/-- Claim C10: dispatch over the route table returns a handler exactly when
the request path is one of the four registered literals; every other path
(any other string, including extensions or case variants of a registered
literal) yields not-found. -/
theorem dispatch_total_on_registered (p : String) :
    (∃ h, dispatch urlpatterns p = some h) ↔
      (p = "" ∨ p = "data-access3" ∨ p = "html1" ∨ p = "html2") := by
  rw [dispatch_isSome_iff]
  constructor
  · rintro ⟨e, he, hep⟩
    fin_cases he <;> simp_all [urlpatterns, path]
  · rintro (h | h | h | h) <;> subst h
    · exact ⟨path "" views.index (some "index"), by decide, rfl⟩
    · exact ⟨path "data-access3" test.dataRender3 (some "index3"), by decide, rfl⟩
    · exact ⟨path "html1" views.htmlPage (some "html_page2"), by decide, rfl⟩
    · exact ⟨path "html2" test.htmlPage2 (some "html_page3"), by decide, rfl⟩
